import Mathlib

/-!
Verification of the AiiA market-data and automation core.

Shallow embedding of the TypeScript source:
  src/app/lib/enhanced-market-data.ts  (cache, rate limiter, debounce, dedup, search)
  src/app/lib/automation-engine.ts     (confidence, signal evaluation, risk management)
  src/unnamed/part_000x analysis route (confidence scorer, RSI)
JavaScript numbers are modelled as rationals; Math.round x = floor (x + 1/2);
Math.min / Math.max are min / max; JS Maps become functions to Option.
-/

/-- JavaScript Math.round: rounds half-up, as floor (x + 1/2). -/
def jsRound (x : ℚ) : ℤ := ⌊x + 1/2⌋

/-! ## Confidence scorers

`calculateConfidenceScore` from the analysis route (src/unnamed/part_003,
lines 118-152) and `calculateRiskAdjustedConfidence` from
src/app/lib/automation-engine.ts (lines 305-333).
JS truthiness on optional numeric fields: `if (assetData.pe)` is true only
for a present, non-zero value; on an optional string field, only for a
present, non-empty string.  Optional fields are modelled as Option. -/

structure ScorerAssetData where
  volume : Option ℚ
  marketCap : Option ℚ
  pe : Option ℚ
  sector : Option String
  newsCount : Nat
  analystRatingsCount : Option Nat
deriving Repr, DecidableEq

structure ScorerTechnicals where
  rsi : ℚ
  priceVsMA20 : ℚ
  volatility : ℚ
deriving Repr, DecidableEq

/-- Truthiness of an optional JS number: present and non-zero. -/
def numTruthy (x : Option ℚ) : Bool :=
  match x with
  | some v => v ≠ 0
  | none => false

/-- Truthiness of an optional JS string: present and non-empty. -/
def strTruthy (x : Option String) : Bool :=
  match x with
  | some s => s ≠ ""
  | none => false

/-- `calculateConfidenceScore` of the analysis route, translated line by line. -/
def calculateConfidenceScore (assetData : ScorerAssetData)
    (tech : ScorerTechnicals) (sentimentOverall : String) : ℤ :=
  let baseScore : ℚ := 60
  let baseScore := if numTruthy assetData.volume &&
      decide ((assetData.volume.getD 0) > 0) then baseScore + 5 else baseScore
  let baseScore := if numTruthy assetData.marketCap &&
      decide ((assetData.marketCap.getD 0) > 0) then baseScore + 5 else baseScore
  let baseScore := if numTruthy assetData.pe then baseScore + 5 else baseScore
  let baseScore := if strTruthy assetData.sector then baseScore + 5 else baseScore
  let baseScore :=
    if assetData.newsCount > 0 then
      let withNews := baseScore + min (assetData.newsCount * 2 : ℚ) 10
      if sentimentOverall ≠ "NEUTRAL" then withNews + 3 else withNews
    else baseScore
  let baseScore := if tech.rsi > 30 ∧ tech.rsi < 70 then baseScore + 5 else baseScore
  let baseScore := if |tech.priceVsMA20| < 10 then baseScore + 3 else baseScore
  let baseScore :=
    if tech.volatility < 20 then baseScore + 5
    else if tech.volatility > 40 then baseScore - 5
    else baseScore
  let baseScore :=
    match assetData.analystRatingsCount with
    | some n => if n > 0 then baseScore + min (n * 3 : ℚ) 10 else baseScore
    | none => baseScore
  max 45 (min 85 (jsRound baseScore))

/-- `calculateRiskAdjustedConfidence` of the automation engine,
translated line by line. -/
def calculateRiskAdjustedConfidence (rsi macd volatility : ℚ)
    (sentimentOverall sentimentImpact riskTolerance : String) : ℤ :=
  let baseConfidence : ℚ := 60
  let baseConfidence :=
    if rsi > 30 ∧ rsi < 70 then baseConfidence + 10 else baseConfidence
  let baseConfidence := if |macd| < 1/2 then baseConfidence + 5 else baseConfidence
  let baseConfidence :=
    if sentimentOverall ≠ "NEUTRAL" then baseConfidence + 8 else baseConfidence
  let baseConfidence :=
    if sentimentImpact = "HIGH" then baseConfidence + 5 else baseConfidence
  let riskMultiplier : ℚ :=
    if riskTolerance = "LOW" then 4/5
    else if riskTolerance = "MEDIUM" then 1
    else if riskTolerance = "HIGH" then 6/5
    else 1
  let baseConfidence :=
    if volatility > 30 then baseConfidence * (9/10) else baseConfidence
  let baseConfidence :=
    if volatility < 15 then baseConfidence * (11/10) else baseConfidence
  max 45 (min 85 (jsRound (baseConfidence * riskMultiplier)))

/-! ## Risk manager

`setupRiskManagement` of src/app/lib/automation-engine.ts (lines 544-577):
stop-loss and take-profit trigger prices from the signal action, the entry
price and the user risk percentages. -/

inductive TradeAction where
  | buy
  | sell
deriving Repr, DecidableEq

structure RiskPrices where
  stopLossPrice : ℚ
  takeProfitPrice : ℚ
deriving Repr, DecidableEq

/-- The two trigger prices computed by `setupRiskManagement`. -/
def setupRiskManagement (action : TradeAction) (currentPrice : ℚ)
    (stopLossPercent takeProfitPercent : ℚ) : RiskPrices :=
  { stopLossPrice :=
      if action = TradeAction.buy then currentPrice * (1 - stopLossPercent / 100)
      else currentPrice * (1 + stopLossPercent / 100)
    takeProfitPrice :=
      if action = TradeAction.buy then currentPrice * (1 + takeProfitPercent / 100)
      else currentPrice * (1 - takeProfitPercent / 100) }

/-- C1: for every combination of asset data, technical indicators and sentiment
inputs, both confidence scorers return an integer value in [45, 85]; the final
clamp makes the bound hold regardless of the intermediate arithmetic. -/
theorem confidence_score_bounded (assetData : ScorerAssetData)
    (tech : ScorerTechnicals) (sentimentOverall : String)
    (rsi macd volatility : ℚ) (so si rt : String) :
    45 ≤ calculateConfidenceScore assetData tech sentimentOverall ∧
    calculateConfidenceScore assetData tech sentimentOverall ≤ 85 ∧
    45 ≤ calculateRiskAdjustedConfidence rsi macd volatility so si rt ∧
    calculateRiskAdjustedConfidence rsi macd volatility so si rt ≤ 85 := by
  unfold calculateConfidenceScore calculateRiskAdjustedConfidence
  refine ⟨le_max_left _ _, ?_, le_max_left _ _, ?_⟩ <;>
    exact max_le (by norm_num) (min_le_left _ _)

/-- C9: the risk manager computes stop-loss and take-profit trigger prices by
the stated formulas, inverted for a SELL, and a BUY at entry price 100 with
stop-loss 5 percent and take-profit 10 percent yields 95 and 110. -/
theorem setupRiskManagement_formulas (p sl tp : ℚ) :
    setupRiskManagement TradeAction.buy p sl tp =
      { stopLossPrice := p * (1 - sl / 100), takeProfitPrice := p * (1 + tp / 100) } ∧
    setupRiskManagement TradeAction.sell p sl tp =
      { stopLossPrice := p * (1 + sl / 100), takeProfitPrice := p * (1 - tp / 100) } ∧
    setupRiskManagement TradeAction.buy 100 5 10 =
      { stopLossPrice := 95, takeProfitPrice := 110 } := by
  refine ⟨rfl, rfl, ?_⟩
  simp only [setupRiskManagement, if_pos rfl]
  norm_num

/-! ## Signal evaluator

`evaluateAutomationSignal` of src/app/lib/automation-engine.ts
(lines 336-381).  The recommendation string comes from the generative
collaborator; the count of trades executed today is fetched from the
persistence collaborator and passed here as a parameter. -/

structure AnalysisResult where
  recommendation : String
  confidence : ℚ
  priceTarget : Option ℚ
deriving Repr, DecidableEq

structure UserSettings where
  id : String
  buyConfidenceThreshold : ℚ
  sellConfidenceThreshold : ℚ
  maxTradesPerDay : Nat
deriving Repr, DecidableEq

structure AutomationSignal where
  assetId : String
  symbol : String
  action : String
  confidence : ℚ
  priceTarget : Option ℚ
  currentPrice : ℚ
  recommendation : String
  userId : String
deriving Repr, DecidableEq

/-- The buy-side gate of `evaluateAutomationSignal`. -/
def isBuySignal (analysis : AnalysisResult) (user : UserSettings) : Bool :=
  analysis.recommendation == "BUY" &&
    decide (user.buyConfidenceThreshold ≤ analysis.confidence)

/-- The sell-side gate of `evaluateAutomationSignal`. -/
def isSellSignal (analysis : AnalysisResult) (user : UserSettings) : Bool :=
  analysis.recommendation == "SELL" &&
    decide (user.sellConfidenceThreshold ≤ analysis.confidence)

/-- `evaluateAutomationSignal`, translated line by line: threshold gates,
then the daily trade ceiling, then signal construction. -/
def evaluateAutomationSignal (analysis : AnalysisResult) (user : UserSettings)
    (assetId assetSymbol : String) (assetPrice : ℚ) (todayTrades : Nat) :
    Option AutomationSignal :=
  let isBuy := isBuySignal analysis user
  let isSell := isSellSignal analysis user
  if !isBuy && !isSell then none
  else if user.maxTradesPerDay ≤ todayTrades then none
  else some
    { assetId := assetId
      symbol := assetSymbol
      action := if isBuy then "BUY" else "SELL"
      confidence := analysis.confidence
      priceTarget := analysis.priceTarget
      currentPrice := assetPrice
      recommendation := analysis.recommendation
      userId := user.id }

/-- C2: the evaluator emits a signal exactly when the recommendation is BUY or
SELL with confidence meeting the respective user threshold and the daily trade
count strictly below the daily limit; in particular HOLD recommendations,
below-threshold confidence and an exhausted daily limit all yield no signal. -/
theorem evaluateAutomationSignal_gate (analysis : AnalysisResult)
    (user : UserSettings) (assetId assetSymbol : String) (assetPrice : ℚ)
    (todayTrades : Nat) :
    (evaluateAutomationSignal analysis user assetId assetSymbol assetPrice
        todayTrades).isSome ↔
      ((analysis.recommendation = "BUY" ∧
          user.buyConfidenceThreshold ≤ analysis.confidence) ∨
        (analysis.recommendation = "SELL" ∧
          user.sellConfidenceThreshold ≤ analysis.confidence)) ∧
      todayTrades < user.maxTradesPerDay := by
  unfold evaluateAutomationSignal isBuySignal isSellSignal
  by_cases hb : analysis.recommendation = "BUY" ∧
      user.buyConfidenceThreshold ≤ analysis.confidence
  · obtain ⟨hb1, hb2⟩ := hb
    simp [hb1, hb2, Nat.lt_iff_add_one_le, Nat.not_le, Nat.lt_irrefl]
  · by_cases hs : analysis.recommendation = "SELL" ∧
        user.sellConfidenceThreshold ≤ analysis.confidence
    · obtain ⟨hs1, hs2⟩ := hs
      have : analysis.recommendation ≠ "BUY" := by simp [hs1]
      simp [hs1, hs2, this, Nat.not_le]
    · rcases Classical.em (analysis.recommendation = "BUY") with h1 | h1
      · have h2 : ¬ user.buyConfidenceThreshold ≤ analysis.confidence := by
          intro h
          exact hb ⟨h1, h⟩
        have h3 : analysis.recommendation ≠ "SELL" := by simp [h1]
        simp [h1, h2, h3, hb, hs]
      · rcases Classical.em (analysis.recommendation = "SELL") with h4 | h4
        · have h5 : ¬ user.sellConfidenceThreshold ≤ analysis.confidence := by
            intro h
            exact hs ⟨h4, h⟩
          simp [h1, h4, h5, hb, hs]
        · simp [h1, h4, hb, hs]

/-! ## In-flight evaluation marker

`generateAutomatedAnalysis` of src/app/lib/automation-engine.ts
(lines 36-159): a Set of `symbol-userId` keys guards against concurrent
evaluations; the body runs inside try, and the finally clause removes the
key whether the body returns or throws.  The body itself (database and
collaborator calls) is abstracted to an outcome flag. -/

/-- The in-flight key `symbol-userId`. -/
def analysisKey (symbol userId : String) : String :=
  symbol ++ "-" ++ userId

/-- The guard at the top of `generateAutomatedAnalysis`: reject when the key
is already in flight, otherwise record it. -/
def startAnalysis (running : List String) (symbol userId : String) :
    Except String (List String) :=
  let key := analysisKey symbol userId
  if key ∈ running then Except.error "Analysis already in progress for this asset"
  else Except.ok (key :: running)

/-- The finally clause of `generateAutomatedAnalysis`: remove the key. -/
def finishAnalysis (running : List String) (symbol userId : String) :
    List String :=
  running.erase (analysisKey symbol userId)

/-- Whether the abstract body of the evaluation returns or throws. -/
inductive BodyOutcome where
  | returns
  | throws
deriving Repr, DecidableEq

/-- One full call of `generateAutomatedAnalysis` over the in-flight set:
the guard, then the body with its outcome, then the finally clause. -/
def runAnalysis (running : List String) (symbol userId : String)
    (outcome : BodyOutcome) : Except String Unit × List String :=
  match startAnalysis running symbol userId with
  | Except.error e => (Except.error e, running)
  | Except.ok marked =>
    match outcome with
    | BodyOutcome.returns => (Except.ok (), finishAnalysis marked symbol userId)
    | BodyOutcome.throws =>
        (Except.error "body failed", finishAnalysis marked symbol userId)

/-- C8: while an evaluation for a pair is in flight a second call for the same
pair is rejected with the in-progress error and changes no state; the marker
is removed when the first evaluation settles whether it returns or throws, so
a subsequent call for the same pair proceeds. -/
theorem runAnalysis_serializes (running : List String) (symbol userId : String)
    (outcome later : BodyOutcome)
    (h : analysisKey symbol userId ∉ running) :
    (startAnalysis running symbol userId =
        Except.ok (analysisKey symbol userId :: running)) ∧
    (startAnalysis (analysisKey symbol userId :: running) symbol userId =
        Except.error "Analysis already in progress for this asset") ∧
    (runAnalysis (analysisKey symbol userId :: running) symbol userId later =
        (Except.error "Analysis already in progress for this asset",
          analysisKey symbol userId :: running)) ∧
    ((runAnalysis running symbol userId outcome).2 = running) ∧
    (startAnalysis (runAnalysis running symbol userId outcome).2 symbol userId =
        Except.ok (analysisKey symbol userId :: running)) := by
  have hstart : startAnalysis running symbol userId =
      Except.ok (analysisKey symbol userId :: running) := by
    simp [startAnalysis, h]
  have hbusy : startAnalysis (analysisKey symbol userId :: running) symbol
      userId = Except.error "Analysis already in progress for this asset" := by
    simp [startAnalysis]
  have hfin : finishAnalysis (analysisKey symbol userId :: running) symbol
      userId = running := by
    simp [finishAnalysis, List.erase_cons_head]
  have hrun : (runAnalysis running symbol userId outcome).2 = running := by
    cases outcome <;> simp [runAnalysis, hstart, hfin]
  refine ⟨hstart, hbusy, ?_, hrun, ?_⟩
  · cases later <;> simp [runAnalysis, hbusy]
  · rw [hrun]
    exact hstart

/-- Witness for C8 at a concrete pair with an empty in-flight set. -/
theorem runAnalysis_serializes_witness :
    (startAnalysis [] "AAPL" "user1" = Except.ok ["AAPL-user1"]) ∧
    (startAnalysis ["AAPL-user1"] "AAPL" "user1" =
        Except.error "Analysis already in progress for this asset") ∧
    (runAnalysis ["AAPL-user1"] "AAPL" "user1" BodyOutcome.returns =
        (Except.error "Analysis already in progress for this asset",
          ["AAPL-user1"])) ∧
    ((runAnalysis [] "AAPL" "user1" BodyOutcome.throws).2 = []) ∧
    (startAnalysis (runAnalysis [] "AAPL" "user1" BodyOutcome.throws).2 "AAPL"
        "user1" = Except.ok ["AAPL-user1"]) :=
  runAnalysis_serializes [] "AAPL" "user1" BodyOutcome.throws
    BodyOutcome.returns (by decide)

/-! ## RSI

`calculateRSI` of the analysis route (src/unnamed/part_003, lines 55-79):
a guard returning the neutral default 50 when the series has fewer than
period + 1 samples, one pass accumulating gains and losses over the first
period changes, the average-loss-zero branch returning 100, and otherwise
100 - 100 / (1 + RS). -/

/-- The gain and loss accumulation loop of `calculateRSI`: after
`gainsLossesAux prices n` the loop has processed the changes at indices
1 through n, exactly as the source loop `for i = 1..period`. -/
def gainsLossesAux (prices : List ℚ) : Nat → ℚ × ℚ
  | 0 => (0, 0)
  | n + 1 =>
    let prev := gainsLossesAux prices n
    let change := prices.getD (n + 1) 0 - prices.getD n 0
    if 0 < change then (prev.1 + change, prev.2) else (prev.1, prev.2 - change)

/-- `calculateRSI` of the analysis route, translated line by line. -/
def calculateRSI (prices : List ℚ) (period : Nat := 14) : ℚ :=
  if prices.length < period + 1 then 50
  else
    let gl := gainsLossesAux prices period
    let avgGain := gl.1 / (period : ℚ)
    let avgLoss := gl.2 / (period : ℚ)
    if avgLoss = 0 then 100
    else
      let rs := avgGain / avgLoss
      100 - 100 / (1 + rs)

lemma gainsLossesAux_succ (prices : List ℚ) (k : Nat) :
    gainsLossesAux prices (k + 1) =
      if 0 < prices.getD (k + 1) 0 - prices.getD k 0 then
        ((gainsLossesAux prices k).1 +
            (prices.getD (k + 1) 0 - prices.getD k 0),
          (gainsLossesAux prices k).2)
      else
        ((gainsLossesAux prices k).1,
          (gainsLossesAux prices k).2 -
            (prices.getD (k + 1) 0 - prices.getD k 0)) := rfl

lemma gainsLossesAux_losses_zero (prices : List ℚ) (n : Nat)
    (h : ∀ i < n, prices.getD i 0 ≤ prices.getD (i + 1) 0) :
    (gainsLossesAux prices n).2 = 0 := by
  induction n with
  | zero => rfl
  | succ k ih =>
    have hk : ∀ i < k, prices.getD i 0 ≤ prices.getD (i + 1) 0 :=
      fun i hi => h i (Nat.lt_succ_of_lt hi)
    have hck : prices.getD k 0 ≤ prices.getD (k + 1) 0 := h k (Nat.lt_succ_self k)
    rw [gainsLossesAux_succ]
    by_cases hc : 0 < prices.getD (k + 1) 0 - prices.getD k 0
    · rw [if_pos hc]
      exact ih hk
    · rw [if_neg hc]
      have hz : prices.getD (k + 1) 0 - prices.getD k 0 = 0 :=
        le_antisymm (not_lt.mp hc) (sub_nonneg.mpr hck)
      rw [hz]
      rw [ih hk]
      ring

lemma gainsLossesAux_gains_zero (prices : List ℚ) (n : Nat)
    (h : ∀ i < n, prices.getD (i + 1) 0 ≤ prices.getD i 0) :
    (gainsLossesAux prices n).1 = 0 := by
  induction n with
  | zero => rfl
  | succ k ih =>
    have hk : ∀ i < k, prices.getD (i + 1) 0 ≤ prices.getD i 0 :=
      fun i hi => h i (Nat.lt_succ_of_lt hi)
    have hck : prices.getD (k + 1) 0 ≤ prices.getD k 0 := h k (Nat.lt_succ_self k)
    have hc : ¬ 0 < prices.getD (k + 1) 0 - prices.getD k 0 := by
      simp only [not_lt]
      linarith
    rw [gainsLossesAux_succ, if_neg hc]
    exact ih hk

lemma gainsLossesAux_losses_nonneg (prices : List ℚ) (n : Nat) :
    0 ≤ (gainsLossesAux prices n).2 := by
  induction n with
  | zero => exact le_refl 0
  | succ k ih =>
    rw [gainsLossesAux_succ]
    by_cases hc : 0 < prices.getD (k + 1) 0 - prices.getD k 0
    · rw [if_pos hc]
      exact ih
    · rw [if_neg hc]
      have := not_lt.mp hc
      dsimp only
      linarith

lemma gainsLossesAux_losses_pos (prices : List ℚ) (n : Nat)
    (h : ∀ i < n + 1, prices.getD (i + 1) 0 < prices.getD i 0) :
    0 < (gainsLossesAux prices (n + 1)).2 := by
  have hnn := gainsLossesAux_losses_nonneg prices n
  have hstep : prices.getD (n + 1) 0 < prices.getD n 0 := h n (Nat.lt_succ_self n)
  have hc : ¬ 0 < prices.getD (n + 1) 0 - prices.getD n 0 := by
    simp only [not_lt]
    linarith
  rw [gainsLossesAux_succ, if_neg hc]
  dsimp only
  linarith

/-- C4 (amended): for the RSI of the analysis route, a series of at least 15
samples whose first 15 samples never decrease yields RSI = 100 through the
zero-average-loss branch; a series of at least 15 samples whose first 15
samples strictly decrease yields RSI = 0 through the average-loss path; and
a series with fewer than 15 samples yields exactly the neutral default 50. -/
theorem calculateRSI_cases (up down short : List ℚ)
    (hupLen : 15 ≤ up.length)
    (hup : ∀ i < 14, up.getD i 0 ≤ up.getD (i + 1) 0)
    (hdownLen : 15 ≤ down.length)
    (hdown : ∀ i < 14, down.getD (i + 1) 0 < down.getD i 0)
    (hshort : short.length < 15) :
    calculateRSI up 14 = 100 ∧ calculateRSI down 14 = 0 ∧
      calculateRSI short 14 = 50 := by
  refine ⟨?_, ?_, ?_⟩
  · have hguard : ¬ up.length < 15 := not_lt.mpr hupLen
    have hloss : (gainsLossesAux up 14).2 = 0 := gainsLossesAux_losses_zero up 14 hup
    simp [calculateRSI, hguard, hloss]
  · have hguard : ¬ down.length < 15 := not_lt.mpr hdownLen
    have hgain : (gainsLossesAux down 14).1 = 0 :=
      gainsLossesAux_gains_zero down 14 (fun i hi => le_of_lt (hdown i hi))
    have hloss : 0 < (gainsLossesAux down 14).2 :=
      gainsLossesAux_losses_pos down 13 hdown
    have hlossNe : (gainsLossesAux down 14).2 / (14 : ℚ) ≠ 0 := by
      have : 0 < (gainsLossesAux down 14).2 / (14 : ℚ) := by positivity
      linarith
    simp [calculateRSI, hguard, hlossNe, hgain]
  · have hguard : short.length < 15 := hshort
    simp [calculateRSI, hguard]

/-- Witness for C4 at concrete 15-sample rising and falling series and a
14-sample short series. -/
theorem calculateRSI_cases_witness :
    calculateRSI [1, 2, 3, 4, 5, 6, 7, 8, 9, 10, 11, 12, 13, 14, 15] 14 = 100 ∧
    calculateRSI [15, 14, 13, 12, 11, 10, 9, 8, 7, 6, 5, 4, 3, 2, 1] 14 = 0 ∧
    calculateRSI [1, 2, 3, 4, 5, 6, 7, 8, 9, 10, 11, 12, 13, 14] 14 = 50 :=
  calculateRSI_cases
    [1, 2, 3, 4, 5, 6, 7, 8, 9, 10, 11, 12, 13, 14, 15]
    [15, 14, 13, 12, 11, 10, 9, 8, 7, 6, 5, 4, 3, 2, 1]
    [1, 2, 3, 4, 5, 6, 7, 8, 9, 10, 11, 12, 13, 14]
    (by decide) (by decide) (by decide) (by decide) (by decide)

/-- C4 counterexample: a 14-sample monotonically increasing series falls under
the fewer-than-15-samples guard and yields 50, not 100 as the claim states. -/
theorem calculateRSI_14_sample_counterexample :
    calculateRSI [1, 2, 3, 4, 5, 6, 7, 8, 9, 10, 11, 12, 13, 14] 14 = 50 ∧
      calculateRSI [1, 2, 3, 4, 5, 6, 7, 8, 9, 10, 11, 12, 13, 14] 14 ≠ 100 := by
  constructor
  · norm_num [calculateRSI]
  · norm_num [calculateRSI]

/-! ## Cache store

`getCachedData` / `setCachedData` of src/app/lib/enhanced-market-data.ts
(lines 99-124).  Each entry stores the data, the write timestamp, and the
ttl computed from the class supplied at write time; on read the source looks
up `CACHE_DURATIONS[cacheType]` from the class supplied to the read call and
never consults the stored ttl field.  Expired entries are deleted on read. -/

inductive CacheType where
  | intraday
  | daily
  | historical
  | news
  | analysis
  | search
  | extended
deriving Repr, DecidableEq

/-- The CACHE_DURATIONS table of the enhanced service, in milliseconds. -/
def CACHE_DURATIONS : CacheType → Nat
  | CacheType.intraday => 3 * 60 * 1000
  | CacheType.daily => 10 * 60 * 1000
  | CacheType.historical => 45 * 60 * 1000
  | CacheType.news => 8 * 60 * 1000
  | CacheType.analysis => 20 * 60 * 1000
  | CacheType.search => 5 * 60 * 1000
  | CacheType.extended => 2 * 60 * 60 * 1000

structure CacheEntry (α : Type) where
  data : α
  timestamp : Nat
  ttl : Nat
deriving Repr, DecidableEq

/-- The cache Map, keyed by string. -/
def CacheMap (α : Type) := String → Option (CacheEntry α)

/-- `getCachedData`: returns the hit value and the possibly shrunk cache. -/
def getCachedData {α : Type} (cache : CacheMap α) (key : String)
    (cacheType : CacheType) (now : Nat) : Option α × CacheMap α :=
  let ttl := CACHE_DURATIONS cacheType
  match cache key with
  | some cached =>
    if (now : ℤ) - cached.timestamp < ttl then (some cached.data, cache)
    else (none, fun k => if k = key then none else cache k)
  | none => (none, cache)

/-- `setCachedData`: stores the data with the write timestamp and the ttl of
the class supplied at write time. -/
def setCachedData {α : Type} (cache : CacheMap α) (key : String) (data : α)
    (cacheType : CacheType) (now : Nat) : CacheMap α :=
  fun k =>
    if k = key then some { data := data, timestamp := now, ttl := CACHE_DURATIONS cacheType }
    else cache k

/-- C10: a cache read decides expiry against the TTL of the class supplied to
the read call, never against the ttl stored with the entry: the read result
over an arbitrary stored entry depends only on the entry timestamp and the
reading class, is unchanged under any rewrite of the stored ttl field, and an
entry written under one class is retained or evicted on read under another
class according to the reading class alone. -/
theorem getCachedData_uses_read_class {α : Type} (base : CacheMap α)
    (key : String) (e : CacheEntry α) (c : CacheType) (now : Nat) :
    ((getCachedData (fun k => if k = key then some e else base k) key c now).1 =
      if (now : ℤ) - e.timestamp < CACHE_DURATIONS c then some e.data
      else none) ∧
    (∀ t' : Nat,
      (getCachedData
          (fun k => if k = key then some { e with ttl := t' } else base k)
          key c now).1 =
        (getCachedData (fun k => if k = key then some e else base k) key c
          now).1) ∧
    (∀ (w : CacheType) (d : α) (tw : Nat),
      (getCachedData (setCachedData base key d w tw) key c now).1 =
        if (now : ℤ) - tw < CACHE_DURATIONS c then some d else none) := by
  refine ⟨?_, ?_, ?_⟩
  · by_cases h : (now : ℤ) - e.timestamp < CACHE_DURATIONS c
    · simp [getCachedData, h]
    · simp [getCachedData, h]
  · intro t'
    by_cases h : (now : ℤ) - e.timestamp < CACHE_DURATIONS c
    · simp [getCachedData, h]
    · simp [getCachedData, h]
  · intro w d tw
    by_cases h : (now : ℤ) - tw < CACHE_DURATIONS c
    · simp [getCachedData, setCachedData, h]
    · simp [getCachedData, setCachedData, h]

/-! ## Rate limiter

`checkRateLimit` of src/app/lib/enhanced-market-data.ts (lines 127-153).
The counter Map is keyed by `apiName_floor(now / windowSize)`, modelled as
the pair (apiName, now / windowSize).  The JS truthiness test
`current.backoffUntil && now < current.backoffUntil` is modelled on the
Option; a stored backoffUntil is always positive (now + at least 30000),
so truthiness coincides with presence. -/

structure RateEntry where
  count : Nat
  window : Nat
  backoffUntil : Option Nat
deriving Repr, DecidableEq

/-- The rateLimits Map, keyed by source name and window index. -/
def RateMap : Type := String × Nat → Option RateEntry

def RATE_LIMIT_WINDOW : Nat := 60 * 1000

/-- The backoff test at the top of `checkRateLimit`. -/
def inActiveBackoff (e : RateEntry) (now : Nat) : Bool :=
  match e.backoffUntil with
  | some b => decide (now < b)
  | none => false

/-- `checkRateLimit`, translated line by line: backoff test, then the
counter test establishing an exponential backoff, then the increment. -/
def checkRateLimit (rl : RateMap) (apiName : String) (maxCalls : Nat)
    (now : Nat) : Bool × RateMap :=
  let key : String × Nat := (apiName, now / RATE_LIMIT_WINDOW)
  let current := (rl key).getD { count := 0, window := now, backoffUntil := none }
  if inActiveBackoff current now then
    (false, rl)
  else if maxCalls ≤ current.count then
    let backoffPeriod := min (30000 * 2 ^ (current.count - maxCalls)) 300000
    let updated := { current with backoffUntil := some (now + backoffPeriod) }
    (false, fun k => if k = key then some updated else rl k)
  else
    let updated := { current with count := current.count + 1 }
    (true, fun k => if k = key then some updated else rl k)

/-- A sequence of rate-limit checks at the given timestamps. -/
def runRateChecks (rl : RateMap) (apiName : String) (maxCalls : Nat) :
    List Nat → List Bool × RateMap
  | [] => ([], rl)
  | t :: ts =>
    let r := checkRateLimit rl apiName maxCalls t
    let rest := runRateChecks r.2 apiName maxCalls ts
    (r.1 :: rest.1, rest.2)

lemma checkRateLimit_backoff_active (rl : RateMap) (api : String)
    (maxCalls now : Nat) (e : RateEntry) (b : Nat)
    (he : rl (api, now / RATE_LIMIT_WINDOW) = some e)
    (hb : e.backoffUntil = some b) (hnow : now < b) :
    checkRateLimit rl api maxCalls now = (false, rl) := by
  simp [checkRateLimit, he, inActiveBackoff, hb, hnow]

lemma checkRateLimit_fresh (rl : RateMap) (api : String) (maxCalls now : Nat)
    (he : rl (api, now / RATE_LIMIT_WINDOW) = none) (hmax : 0 < maxCalls) :
    (checkRateLimit rl api maxCalls now).1 = true ∧
    (checkRateLimit rl api maxCalls now).2 (api, now / RATE_LIMIT_WINDOW) =
      some { count := 1, window := now, backoffUntil := none } ∧
    ∀ k, k ≠ (api, now / RATE_LIMIT_WINDOW) →
      (checkRateLimit rl api maxCalls now).2 k = rl k := by
  have hc : ¬ maxCalls ≤ (0 : Nat) := by omega
  refine ⟨?_, ?_, ?_⟩
  · simp [checkRateLimit, he, inActiveBackoff, hc]
  · simp [checkRateLimit, he, inActiveBackoff, hc]
  · intro k hk
    simp [checkRateLimit, he, inActiveBackoff, hc, hk]

lemma checkRateLimit_allowed (rl : RateMap) (api : String)
    (maxCalls now c win : Nat)
    (he : rl (api, now / RATE_LIMIT_WINDOW) =
      some { count := c, window := win, backoffUntil := none })
    (hc : c < maxCalls) :
    (checkRateLimit rl api maxCalls now).1 = true ∧
    (checkRateLimit rl api maxCalls now).2 (api, now / RATE_LIMIT_WINDOW) =
      some { count := c + 1, window := win, backoffUntil := none } ∧
    ∀ k, k ≠ (api, now / RATE_LIMIT_WINDOW) →
      (checkRateLimit rl api maxCalls now).2 k = rl k := by
  have hn : ¬ maxCalls ≤ c := by omega
  refine ⟨?_, ?_, ?_⟩
  · simp [checkRateLimit, he, inActiveBackoff, hn]
  · simp [checkRateLimit, he, inActiveBackoff, hn]
  · intro k hk
    simp [checkRateLimit, he, inActiveBackoff, hn, hk]

lemma checkRateLimit_limit (rl : RateMap) (api : String)
    (maxCalls now c win : Nat)
    (he : rl (api, now / RATE_LIMIT_WINDOW) =
      some { count := c, window := win, backoffUntil := none })
    (hc : maxCalls ≤ c) :
    (checkRateLimit rl api maxCalls now).1 = false ∧
    (checkRateLimit rl api maxCalls now).2 (api, now / RATE_LIMIT_WINDOW) =
      some { count := c, window := win,
             backoffUntil :=
               some (now + min (30000 * 2 ^ (c - maxCalls)) 300000) } ∧
    ∀ k, k ≠ (api, now / RATE_LIMIT_WINDOW) →
      (checkRateLimit rl api maxCalls now).2 k = rl k := by
  refine ⟨?_, ?_, ?_⟩
  · simp [checkRateLimit, he, inActiveBackoff, hc]
  · simp [checkRateLimit, he, inActiveBackoff, hc]
  · intro k hk
    simp [checkRateLimit, he, inActiveBackoff, hc, hk]

lemma runRateChecks_window (api : String) (maxCalls w : Nat) :
    ∀ (ts : List Nat) (rl : RateMap) (c win : Nat),
      rl (api, w) = some { count := c, window := win, backoffUntil := none } →
      (∀ t ∈ ts, t / RATE_LIMIT_WINDOW = w) →
      c + ts.length ≤ maxCalls →
      (runRateChecks rl api maxCalls ts).1 = List.replicate ts.length true ∧
      (runRateChecks rl api maxCalls ts).2 (api, w) =
        some { count := c + ts.length, window := win, backoffUntil := none } ∧
      ∀ k, k ≠ (api, w) → (runRateChecks rl api maxCalls ts).2 k = rl k := by
  intro ts
  induction ts with
  | nil =>
    intro rl c win he _ _
    exact ⟨rfl, by simpa [runRateChecks] using he, fun k _ => rfl⟩
  | cons t rest ih =>
    intro rl c win he hw hlen
    have htw : t / RATE_LIMIT_WINDOW = w := hw t (List.mem_cons_self t rest)
    have hcw : rl (api, t / RATE_LIMIT_WINDOW) =
        some { count := c, window := win, backoffUntil := none } := by
      rw [htw]
      exact he
    have hstep := checkRateLimit_allowed rl api maxCalls t c win hcw
      (by simp at hlen; omega)
    have hrest := ih (checkRateLimit rl api maxCalls t).2 (c + 1) win
      (by rw [← htw]; exact hstep.2.1)
      (fun u hu => hw u (List.mem_cons_of_mem t hu))
      (by simp at hlen ⊢; omega)
    refine ⟨?_, ?_, ?_⟩
    · simp only [runRateChecks, hstep.1, hrest.1, List.length_cons,
        List.replicate_succ]
    · simp only [runRateChecks]
      rw [hrest.2.1]
      have : c + 1 + rest.length = c + (rest.length + 1) := by omega
      simp [this]
    · intro k hk
      simp only [runRateChecks]
      rw [hrest.2.2 k hk]
      rw [htw] at hstep
      exact hstep.2.2 k hk

/-- C5 (amended): for every source, starting from a fresh bucket, a sequence
of maxPerWindow allowed checks within one window makes the check at index
maxPerWindow + 1 denied with a backoff of min(30000 * 2 ^ (count - max),
300000) ms recorded on the window bucket; once set, the backoff denies every
subsequent call for that source in the same window until it expires, leaving
the state unchanged; but a call falling in a later window is checked against
a fresh bucket and is allowed, because the backoff is stored under the
per-window key and does not persist across window boundaries. -/
theorem checkRateLimit_window_backoff (rl : RateMap) (api : String)
    (maxCalls w : Nat) (ts : List Nat) (tDeny tNext tLater : Nat)
    (hmax : 0 < maxCalls)
    (hfresh : rl (api, w) = none)
    (hts : ∀ t ∈ ts, t / RATE_LIMIT_WINDOW = w)
    (hlen : ts.length = maxCalls)
    (hDeny : tDeny / RATE_LIMIT_WINDOW = w)
    (hNext : tNext / RATE_LIMIT_WINDOW = w)
    (hNextLt : tNext < tDeny + 30000)
    (hLater : tLater / RATE_LIMIT_WINDOW ≠ w)
    (hfreshLater : rl (api, tLater / RATE_LIMIT_WINDOW) = none) :
    (runRateChecks rl api maxCalls ts).1 = List.replicate maxCalls true ∧
    (checkRateLimit (runRateChecks rl api maxCalls ts).2 api maxCalls
        tDeny).1 = false ∧
    (checkRateLimit (runRateChecks rl api maxCalls ts).2 api maxCalls
        tDeny).2 (api, w) =
      some { count := maxCalls, window := ts.headD tDeny,
             backoffUntil :=
               some (tDeny +
                 min (30000 * 2 ^ (maxCalls - maxCalls)) 300000) } ∧
    checkRateLimit
        (checkRateLimit (runRateChecks rl api maxCalls ts).2 api maxCalls
          tDeny).2 api maxCalls tNext =
      (false,
        (checkRateLimit (runRateChecks rl api maxCalls ts).2 api maxCalls
          tDeny).2) ∧
    (checkRateLimit
        (checkRateLimit (runRateChecks rl api maxCalls ts).2 api maxCalls
          tDeny).2 api maxCalls tLater).1 = true := by
  cases ts with
  | nil =>
    exfalso
    simp at hlen
    omega
  | cons tFirst rest =>
    have hw1 : tFirst / RATE_LIMIT_WINDOW = w :=
      hts tFirst (List.mem_cons_self tFirst rest)
    have hfresh1 : rl (api, tFirst / RATE_LIMIT_WINDOW) = none := by
      rw [hw1]
      exact hfresh
    have hstep1 := checkRateLimit_fresh rl api maxCalls tFirst hfresh1 hmax
    have hentry1 : (checkRateLimit rl api maxCalls tFirst).2 (api, w) =
        some { count := 1, window := tFirst, backoffUntil := none } := by
      rw [← hw1]
      exact hstep1.2.1
    have hlen' : 1 + rest.length ≤ maxCalls := by
      simp at hlen
      omega
    have hseq := runRateChecks_window api maxCalls w rest
      (checkRateLimit rl api maxCalls tFirst).2 1 tFirst hentry1
      (fun u hu => hts u (List.mem_cons_of_mem tFirst hu)) hlen'
    have hrunFirst : (runRateChecks rl api maxCalls (tFirst :: rest)).1 =
        (checkRateLimit rl api maxCalls tFirst).1 ::
          (runRateChecks (checkRateLimit rl api maxCalls tFirst).2 api
            maxCalls rest).1 := rfl
    have hrunState : (runRateChecks rl api maxCalls (tFirst :: rest)).2 =
        (runRateChecks (checkRateLimit rl api maxCalls tFirst).2 api
          maxCalls rest).2 := rfl
    have hcount : 1 + rest.length = maxCalls := by
      simp at hlen
      omega
    have hs1entry : (runRateChecks rl api maxCalls (tFirst :: rest)).2
        (api, w) =
        some { count := maxCalls, window := tFirst, backoffUntil := none } := by
      rw [hrunState]
      rw [hseq.2.1]
      rw [hcount]
    have hs1entryDeny : (runRateChecks rl api maxCalls (tFirst :: rest)).2
        (api, tDeny / RATE_LIMIT_WINDOW) =
        some { count := maxCalls, window := tFirst, backoffUntil := none } := by
      rw [hDeny]
      exact hs1entry
    have hlimit := checkRateLimit_limit
      (runRateChecks rl api maxCalls (tFirst :: rest)).2 api maxCalls tDeny
      maxCalls tFirst hs1entryDeny (le_refl maxCalls)
    have hbval : min (30000 * 2 ^ (maxCalls - maxCalls)) 300000 = 30000 := by
      simp [Nat.sub_self]
    have hs2entry : (checkRateLimit
        (runRateChecks rl api maxCalls (tFirst :: rest)).2 api maxCalls
          tDeny).2 (api, w) =
        some { count := maxCalls, window := tFirst,
               backoffUntil := some (tDeny + 30000) } := by
      have := hlimit.2.1
      rw [hDeny] at this
      rw [this]
      rw [hbval]
    have hs2entryNext : (checkRateLimit
        (runRateChecks rl api maxCalls (tFirst :: rest)).2 api maxCalls
          tDeny).2 (api, tNext / RATE_LIMIT_WINDOW) =
        some { count := maxCalls, window := tFirst,
               backoffUntil := some (tDeny + 30000) } := by
      rw [hNext]
      exact hs2entry
    have hback := checkRateLimit_backoff_active
      (checkRateLimit (runRateChecks rl api maxCalls (tFirst :: rest)).2 api
        maxCalls tDeny).2 api maxCalls tNext
      { count := maxCalls, window := tFirst,
        backoffUntil := some (tDeny + 30000) }
      (tDeny + 30000) hs2entryNext rfl hNextLt
    have hkey : (api, tLater / RATE_LIMIT_WINDOW) ≠ (api, w) := by
      intro hcontra
      exact hLater (congrArg Prod.snd hcontra)
    have hs2later : (checkRateLimit
        (runRateChecks rl api maxCalls (tFirst :: rest)).2 api maxCalls
          tDeny).2 (api, tLater / RATE_LIMIT_WINDOW) = none := by
      have e1 := hlimit.2.2 (api, tLater / RATE_LIMIT_WINDOW)
        (by rw [hDeny]; exact hkey)
      have e2 := hseq.2.2 (api, tLater / RATE_LIMIT_WINDOW) hkey
      have e3 := hstep1.2.2 (api, tLater / RATE_LIMIT_WINDOW)
        (by rw [hw1]; exact hkey)
      rw [e1, hrunState, e2, e3]
      exact hfreshLater
    have hlater := checkRateLimit_fresh
      (checkRateLimit (runRateChecks rl api maxCalls (tFirst :: rest)).2 api
        maxCalls tDeny).2 api maxCalls tLater hs2later hmax
    refine ⟨?_, hlimit.1, ?_, hback, hlater.1⟩
    · rw [hrunFirst, hstep1.1, hseq.1, ← hcount, Nat.add_comm,
        List.replicate_succ]
    · have := hlimit.2.1
      rw [hDeny] at this
      rw [this]
      rfl

/-- Witness for C5 at source alphavantage with maxPerWindow = 3, three
allowed checks at 1, 2, 3 ms, a denied fourth check at 4 ms, a blocked
fifth check at 5 ms, and an allowed check at 60000 ms in the next window. -/
theorem checkRateLimit_window_backoff_witness :
    (runRateChecks (fun _ => none) "alphavantage" 3 [1, 2, 3]).1 =
      List.replicate 3 true ∧
    (checkRateLimit (runRateChecks (fun _ => none) "alphavantage" 3
        [1, 2, 3]).2 "alphavantage" 3 4).1 = false ∧
    (checkRateLimit (runRateChecks (fun _ => none) "alphavantage" 3
        [1, 2, 3]).2 "alphavantage" 3 4).2 ("alphavantage", 0) =
      some { count := 3, window := [1, 2, 3].headD 4,
             backoffUntil := some (4 + min (30000 * 2 ^ (3 - 3)) 300000) } ∧
    checkRateLimit (checkRateLimit (runRateChecks (fun _ => none)
        "alphavantage" 3 [1, 2, 3]).2 "alphavantage" 3 4).2 "alphavantage" 3
        5 =
      (false, (checkRateLimit (runRateChecks (fun _ => none) "alphavantage" 3
        [1, 2, 3]).2 "alphavantage" 3 4).2) ∧
    (checkRateLimit (checkRateLimit (runRateChecks (fun _ => none)
        "alphavantage" 3 [1, 2, 3]).2 "alphavantage" 3 4).2 "alphavantage" 3
        60000).1 = true :=
  checkRateLimit_window_backoff (fun _ => none) "alphavantage" 3 0 [1, 2, 3]
    4 5 60000 (by decide) rfl (by decide) rfl (by decide) (by decide)
    (by decide) (by decide) rfl

/-- C5 counterexample: with maxPerWindow = 3, four checks at 59999 ms exhaust
the window-0 bucket and set a backoff until 89999 ms, yet a fifth check at
60000 ms, still inside the backoff period but falling in window 1, is
allowed: the backoff does not block calls falling in later windows, contrary
to the claim. -/
theorem checkRateLimit_cross_window_counterexample :
    (runRateChecks (fun _ => none) "alphavantage" 3
        [59999, 59999, 59999, 59999, 60000]).1 =
      [true, true, true, false, true] ∧
    (runRateChecks (fun _ => none) "alphavantage" 3
        [59999, 59999, 59999, 59999]).2 ("alphavantage", 0) =
      some { count := 3, window := 59999, backoffUntil := some 89999 } ∧
    60000 < 89999 := by
  refine ⟨?_, ?_, by decide⟩
  · decide
  · decide

/-! ## Debouncer and the search burst

`searchAssets` (src/app/lib/enhanced-market-data.ts, lines 195-260) checks
the cache and then schedules the search operation through `debounceRequest`
(lines 156-177) under the key `search_` ++ the trimmed upper-cased query;
the operation itself runs through `deduplicateRequest` (lines 180-193) under
the same key.  In `debounceRequest`, scheduling a key that already has a
pending timer clears that timer: the closure holding the resolve function of
the earlier caller is discarded, so the promise of the earlier caller never
settles.  A timer that does fire removes itself from the map, runs the
operation once and settles only the promise of the caller that scheduled it.
The model below replays a burst of calls that all miss the cache (the cache
is only written after an operation completes, so every call of the burst
misses) followed by the quiet period in which every surviving timer fires in
scheduling order.  Each fired entry performs exactly one pass through
deduplicateRequest and hence one upstream source-chain invocation, since
distinct keys never share a pending entry and a single fired timer has no
concurrent twin. -/

/-- JavaScript `toUpperCase`, modelled character-wise. -/
def jsToUpper (s : String) : String :=
  String.mk (s.data.map Char.toUpper)

def trimLeftChars : List Char → List Char
  | [] => []
  | c :: cs => if c.isWhitespace then trimLeftChars cs else c :: cs

/-- JavaScript `trim`: strip whitespace from both ends. -/
def jsTrim (s : String) : String :=
  String.mk (((trimLeftChars s.data).reverse |> trimLeftChars).reverse)

/-- The debounce and cache key of `searchAssets`:
`search_` ++ trimmed upper-cased query. -/
def searchKey (query : String) : String :=
  "search_" ++ jsToUpper (jsTrim query)

structure DebounceState where
  timers : List (String × Nat)
  executed : List (String × Nat)
  settled : List Nat
deriving Repr, DecidableEq

def initDebounce : DebounceState :=
  { timers := [], executed := [], settled := [] }

/-- One call of `debounceRequest`: clear any pending timer for the key
(abandoning the waiter of that timer) and register a new timer holding the
closure of the present caller. -/
def scheduleDebounce (s : DebounceState) (key : String) (caller : Nat) :
    DebounceState :=
  { s with timers := (s.timers.filter (fun p => !(p.1 == key))) ++ [(key, caller)] }

/-- The timer body of `debounceRequest`: delete the key from the timer map,
run the operation once and settle the promise of the caller that scheduled
this timer. -/
def fireTimer (s : DebounceState) (key : String) : DebounceState :=
  match s.timers.find? (fun p => p.1 == key) with
  | some p =>
    { timers := s.timers.filter (fun q => !(q.1 == key)),
      executed := s.executed ++ [p],
      settled := s.settled ++ [p.2] }
  | none => s

def fireKeys (s : DebounceState) : List String → DebounceState
  | [] => s
  | k :: ks => fireKeys (fireTimer s k) ks

/-- The quiet period after a burst: every pending timer fires, in scheduling
order. -/
def fireAllTimers (s : DebounceState) : DebounceState :=
  fireKeys s (s.timers.map Prod.fst)

/-- The schedule events of a burst of `searchAssets` calls: caller i
schedules the debounce key of its query. -/
def burstCalls : List String → Nat → List (String × Nat)
  | [], _ => []
  | q :: qs, i => (searchKey q, i) :: burstCalls qs (i + 1)

def scheduleCalls (s : DebounceState) : List (String × Nat) → DebounceState
  | [] => s
  | (k, i) :: rest => scheduleCalls (scheduleDebounce s k i) rest

/-- A burst of `searchAssets` calls that all miss the cache, followed by the
quiet period in which the surviving timers fire. -/
def searchBurst (qs : List String) : DebounceState :=
  fireAllTimers (scheduleCalls initDebounce (burstCalls qs 0))

lemma scheduleCalls_executed_settled :
    ∀ (l : List (String × Nat)) (s : DebounceState),
      (scheduleCalls s l).executed = s.executed ∧
      (scheduleCalls s l).settled = s.settled := by
  intro l
  induction l with
  | nil => exact fun s => ⟨rfl, rfl⟩
  | cons p rest ih =>
    intro s
    obtain ⟨k, i⟩ := p
    exact ih (scheduleDebounce s k i)

lemma scheduleCalls_replicate (q : String) :
    ∀ (n : Nat) (s : DebounceState) (i : Nat), 1 ≤ n →
      (scheduleCalls s (burstCalls (List.replicate n q) i)).timers =
        s.timers.filter (fun p => !(p.1 == searchKey q)) ++
          [(searchKey q, i + n - 1)] := by
  intro n
  induction n with
  | zero => omega
  | succ m ih =>
    intro s i _
    cases Nat.eq_zero_or_pos m with
    | inl hm =>
      subst hm
      simp only [List.replicate_succ, List.replicate_zero, burstCalls,
        scheduleCalls, scheduleDebounce]
      norm_num
    | inr hm =>
      have step : scheduleCalls s (burstCalls (List.replicate (m + 1) q) i) =
          scheduleCalls (scheduleDebounce s (searchKey q) i)
            (burstCalls (List.replicate m q) (i + 1)) := rfl
      rw [step, ih (scheduleDebounce s (searchKey q) i) (i + 1) hm]
      simp only [scheduleDebounce, List.filter_append]
      rw [List.filter_filter]
      have hself : List.filter (fun p => !(p.1 == searchKey q))
          [(searchKey q, i)] = [] := by
        simp
      have hand : (fun (p : String × Nat) =>
          (!(p.1 == searchKey q) && !(p.1 == searchKey q))) =
          (fun p => !(p.1 == searchKey q)) := by
        funext p
        cases p.1 == searchKey q <;> rfl
      rw [hand, hself, List.append_nil]
      have : i + 1 + m - 1 = i + (m + 1) - 1 := by omega
      rw [this]

lemma fireKeys_nodup :
    ∀ (l : List (String × Nat)) (s : DebounceState),
      s.timers = l → (l.map Prod.fst).Nodup →
      fireKeys s (l.map Prod.fst) =
        { timers := [], executed := s.executed ++ l,
          settled := s.settled ++ l.map Prod.snd } := by
  intro l
  induction l with
  | nil =>
    intro s hs _
    cases s with
    | mk timers executed settled =>
      simp only [List.map_nil, fireKeys, List.append_nil]
      simp only at hs
      rw [hs]
  | cons p rest ih =>
    intro s hs hnd
    obtain ⟨k, i⟩ := p
    simp only [List.map_cons] at hnd
    have hknotin : k ∉ rest.map Prod.fst := (List.nodup_cons.mp hnd).1
    have hndrest : (rest.map Prod.fst).Nodup := (List.nodup_cons.mp hnd).2
    have hfind : s.timers.find? (fun p => p.1 == k) = some (k, i) := by
      rw [hs]
      simp [List.find?_cons]
    have hfilter : s.timers.filter (fun q => !(q.1 == k)) = rest := by
      rw [hs]
      have hrest : rest.filter (fun q => !(q.1 == k)) = rest := by
        apply List.filter_eq_self.mpr
        intro a ha
        have hne : a.1 ≠ k := by
          intro hak
          exact hknotin (hak ▸ List.mem_map_of_mem Prod.fst ha)
        simp [hne]
      simp [List.filter_cons, hrest]
    have hfire : fireTimer s k =
        { timers := rest, executed := s.executed ++ [(k, i)],
          settled := s.settled ++ [i] } := by
      unfold fireTimer
      rw [hfind, hfilter]
    have hstep : fireKeys s (((k, i) :: rest).map Prod.fst) =
        fireKeys (fireTimer s k) (rest.map Prod.fst) := rfl
    rw [hstep, hfire, ih _ rfl hndrest]
    simp

lemma searchBurst_replicate (q : String) (n : Nat) (h : 1 ≤ n) :
    searchBurst (List.replicate n q) =
      { timers := [], executed := [(searchKey q, n - 1)],
        settled := [n - 1] } := by
  have hsched := scheduleCalls_replicate q n initDebounce 0 h
  have hinit : initDebounce.timers = [] := rfl
  rw [hinit] at hsched
  simp only [List.filter_nil, List.nil_append, Nat.zero_add] at hsched
  have hexec := scheduleCalls_executed_settled
    (burstCalls (List.replicate n q) 0) initDebounce
  have hfire := fireKeys_nodup [(searchKey q, n - 1)]
    (scheduleCalls initDebounce (burstCalls (List.replicate n q) 0))
    hsched (by simp)
  unfold searchBurst fireAllTimers
  rw [hsched]
  simp only [List.map_cons, List.map_nil] at hfire ⊢
  rw [hfire, hexec.1, hexec.2]
  rfl

/-- C3 (amended): for every burst of n >= 1 `searchAssets` calls with an
identical query that all miss the cache, exactly one debounced execution,
and hence exactly one upstream source-chain invocation, takes place; only
the promise of the last caller settles with that result, while the promises
of the earlier n - 1 callers are abandoned by the timer cancellation and
never settle. -/
theorem searchBurst_identical_query (q : String) (n : Nat) (h : 1 ≤ n) :
    (searchBurst (List.replicate n q)).executed = [(searchKey q, n - 1)] ∧
    (searchBurst (List.replicate n q)).settled = [n - 1] ∧
    ∀ i < n - 1, i ∉ (searchBurst (List.replicate n q)).settled := by
  rw [searchBurst_replicate q n h]
  refine ⟨rfl, rfl, ?_⟩
  intro i hi
  simp only [List.mem_singleton]
  omega

/-- Witness for C3 at a burst of three identical IBM queries. -/
theorem searchBurst_identical_query_witness :
    (searchBurst (List.replicate 3 "IBM")).executed =
      [(searchKey "IBM", 2)] ∧
    (searchBurst (List.replicate 3 "IBM")).settled = [2] ∧
    ∀ i < 2, i ∉ (searchBurst (List.replicate 3 "IBM")).settled :=
  searchBurst_identical_query "IBM" 3 (by decide)

/-- C3 counterexample: in a burst of two identical concurrent IBM queries
that miss the cache, one upstream execution happens, but only the promise of
the second caller settles; the promise of the first caller never resolves,
so it is false that every one of the N callers receives the result. -/
theorem searchBurst_dropped_waiter_counterexample :
    (searchBurst ["IBM", "IBM"]).executed.length = 1 ∧
    (searchBurst ["IBM", "IBM"]).settled = [1] ∧
    0 ∉ (searchBurst ["IBM", "IBM"]).settled := by
  have h : searchBurst ["IBM", "IBM"] =
      { timers := [], executed := [(searchKey "IBM", 1)], settled := [1] } :=
    searchBurst_replicate "IBM" 2 (by decide)
  rw [h]
  refine ⟨rfl, rfl, by simp⟩

lemma burstCalls_map_fst : ∀ (qs : List String) (i : Nat),
    (burstCalls qs i).map Prod.fst = qs.map searchKey := by
  intro qs
  induction qs with
  | nil => intro i; rfl
  | cons q rest ih =>
    intro i
    simp only [burstCalls, List.map_cons, ih]

lemma burstCalls_map_snd : ∀ (qs : List String) (i : Nat),
    (burstCalls qs i).map Prod.snd = List.range' i qs.length := by
  intro qs
  induction qs with
  | nil => intro i; rfl
  | cons q rest ih =>
    intro i
    simp only [burstCalls, List.map_cons, ih, List.length_cons, List.range']

lemma burstCalls_length (qs : List String) (i : Nat) :
    (burstCalls qs i).length = qs.length := by
  have := congrArg List.length (burstCalls_map_fst qs i)
  simpa using this

lemma scheduleCalls_disjoint :
    ∀ (l : List (String × Nat)) (s : DebounceState),
      (l.map Prod.fst).Nodup →
      (∀ p ∈ l, p.1 ∉ s.timers.map Prod.fst) →
      (scheduleCalls s l).timers = s.timers ++ l := by
  intro l
  induction l with
  | nil =>
    intro s _ _
    simp [scheduleCalls]
  | cons p rest ih =>
    intro s hnd hdisj
    obtain ⟨k, i⟩ := p
    simp only [List.map_cons] at hnd
    have hknotin : k ∉ rest.map Prod.fst := (List.nodup_cons.mp hnd).1
    have hndrest : (rest.map Prod.fst).Nodup := (List.nodup_cons.mp hnd).2
    have hks : k ∉ s.timers.map Prod.fst :=
      hdisj (k, i) (List.mem_cons_self _ _)
    have hfilter : s.timers.filter (fun p => !(p.1 == k)) = s.timers := by
      apply List.filter_eq_self.mpr
      intro a ha
      have hne : a.1 ≠ k := by
        intro hak
        exact hks (hak ▸ List.mem_map_of_mem Prod.fst ha)
      simp [hne]
    have hsched : (scheduleDebounce s k i).timers = s.timers ++ [(k, i)] := by
      simp only [scheduleDebounce, hfilter]
    have hrest : ∀ p ∈ rest,
        p.1 ∉ (scheduleDebounce s k i).timers.map Prod.fst := by
      intro p hp
      rw [hsched]
      simp only [List.map_append, List.mem_append, List.map_cons,
        List.map_nil, List.mem_singleton]
      intro hmem
      cases hmem with
      | inl hin => exact hdisj p (List.mem_cons_of_mem _ hp) hin
      | inr heq =>
        exact hknotin (heq ▸ List.mem_map_of_mem Prod.fst hp)
    have hstep : scheduleCalls s ((k, i) :: rest) =
        scheduleCalls (scheduleDebounce s k i) rest := rfl
    rw [hstep, ih (scheduleDebounce s k i) hndrest hrest, hsched,
      List.append_assoc]
    rfl

lemma searchBurst_nodup_keys (qs : List String)
    (h : (qs.map searchKey).Nodup) :
    searchBurst qs =
      { timers := [], executed := burstCalls qs 0,
        settled := List.range' 0 qs.length } := by
  have hfst := burstCalls_map_fst qs 0
  have hnd : ((burstCalls qs 0).map Prod.fst).Nodup := by
    rw [hfst]
    exact h
  have hsched := scheduleCalls_disjoint (burstCalls qs 0) initDebounce hnd
    (by intro p hp; simp [initDebounce])
  have hinit : initDebounce.timers = [] := rfl
  rw [hinit, List.nil_append] at hsched
  have hexec := scheduleCalls_executed_settled (burstCalls qs 0) initDebounce
  have hfire := fireKeys_nodup (burstCalls qs 0)
    (scheduleCalls initDebounce (burstCalls qs 0)) hsched hnd
  unfold searchBurst fireAllTimers
  rw [hsched, hfire, hexec.1, hexec.2, burstCalls_map_snd]
  rfl

/-- C6 (amended): the debounce key of `searchAssets` contains the normalized
query, so a rapid burst of calls whose queries have pairwise distinct
normalized keys produces one debounced execution per call, not one in total:
every caller, including the earlier ones, has its own timer survive and its
own upstream execution performed, and every caller settles with the result
of its own query.  Only calls sharing the same normalized query collapse. -/
theorem searchBurst_distinct_queries (qs : List String)
    (h : (qs.map searchKey).Nodup) :
    (searchBurst qs).executed = burstCalls qs 0 ∧
    (searchBurst qs).executed.length = qs.length ∧
    (searchBurst qs).settled = List.range' 0 qs.length := by
  rw [searchBurst_nodup_keys qs h]
  exact ⟨rfl, burstCalls_length qs 0, rfl⟩

/-- Witness for C6 at a burst of the two distinct queries IBM and AAPL. -/
theorem searchBurst_distinct_queries_witness :
    (searchBurst ["IBM", "AAPL"]).executed = burstCalls ["IBM", "AAPL"] 0 ∧
    (searchBurst ["IBM", "AAPL"]).executed.length = 2 ∧
    (searchBurst ["IBM", "AAPL"]).settled = List.range' 0 2 :=
  searchBurst_distinct_queries ["IBM", "AAPL"] (by decide)

/-- C6 counterexample: a burst of the two distinct queries A and B within
the debounce window performs two debounced executions, not exactly one, and
the earlier call of the burst does perform its own upstream execution,
contrary to the claim. -/
theorem searchBurst_distinct_two_executions_counterexample :
    (searchBurst ["A", "B"]).executed.length = 2 ∧
    (searchBurst ["A", "B"]).executed.length ≠ 1 ∧
    (searchKey "A", 0) ∈ (searchBurst ["A", "B"]).executed := by
  have h := searchBurst_nodup_keys ["A", "B"] (by decide)
  rw [h]
  refine ⟨rfl, by decide, ?_⟩
  exact List.mem_cons_self _ _

/-! ## Enhanced fallback search

`getEnhancedFallbackSearchResults` of src/app/lib/enhanced-market-data.ts
(lines 262-333) and the provider branches of `searchAssets`.  Math.random
draws are modelled as a stream of rationals in [0, 1), three draws per
mapped asset (price variation, change percent, synthetic volume).  The two
formatted display strings dayRange and week52Range and the derived
week52High/Low enrichment, conditional text formatting the claims never
mention, are omitted from the result record; every other field of the map
is translated.  A provider that is rate-limited contributes nothing, and a
provider error is caught inside `searchAssets` and likewise contributes
nothing, so both are modelled by an absent provider result list. -/

/-- JavaScript `toLowerCase`, modelled character-wise. -/
def jsToLower (s : String) : String :=
  String.mk (s.data.map Char.toLower)

def charsPrefixOf : List Char → List Char → Bool
  | [], _ => true
  | _ :: _, [] => false
  | a :: as, b :: bs => (a == b) && charsPrefixOf as bs

def charsInfixOf (needle : List Char) : List Char → Bool
  | [] => needle.isEmpty
  | c :: rest => charsPrefixOf needle (c :: rest) || charsInfixOf needle rest

/-- JavaScript `includes`: substring containment. -/
def jsIncludes (hay needle : String) : Bool :=
  charsInfixOf needle.data hay.data

/-- Math.round to two decimals: `Math.round(x * 100) / 100`. -/
def jsRound2 (x : ℚ) : ℚ :=
  ((jsRound (x * 100) : ℤ) : ℚ) / 100

structure FallbackAsset where
  symbol : String
  name : String
  type : String
  basePrice : ℚ
  sector : String
  previousClose : ℚ
  openPrice : ℚ
  beta : Option ℚ
  eps : Option ℚ
  pe : Option ℚ
  volume : Option ℚ
deriving Repr, DecidableEq

structure FallbackResult where
  symbol : String
  name : String
  type : String
  price : ℚ
  change : ℚ
  changePercent : ℚ
  volume : ℚ
  sector : String
  previousClose : ℚ
  openPrice : ℚ
  beta : Option ℚ
  eps : Option ℚ
  pe : Option ℚ
deriving Repr, DecidableEq

/-- The IBM row of the fallback table, added by the source to address the
originally reported defect. -/
def ibmFallbackAsset : FallbackAsset :=
  { symbol := "IBM", name := "International Business Machines Corp.",
    type := "STOCK", basePrice := 145, sector := "Technology",
    previousClose := 144.50, openPrice := 145.20, beta := some 0.85,
    eps := some 6.63, pe := some 21.9, volume := none }

/-- The static fallback table of the enhanced service, row for row. -/
def enhancedFallbackAssets : List FallbackAsset :=
  [ { symbol := "AAPL", name := "Apple Inc.", type := "STOCK",
      basePrice := 175, sector := "Technology", previousClose := 174.50,
      openPrice := 175.20, beta := some 1.25, eps := some 6.15,
      pe := some 28.5, volume := none },
    { symbol := "GOOGL", name := "Alphabet Inc.", type := "STOCK",
      basePrice := 142, sector := "Technology", previousClose := 141.80,
      openPrice := 142.10, beta := some 1.05, eps := some 5.80,
      pe := some 24.5, volume := none },
    { symbol := "TSLA", name := "Tesla, Inc.", type := "STOCK",
      basePrice := 248, sector := "Automotive", previousClose := 247.50,
      openPrice := 249.00, beta := some 2.15, eps := some 3.20,
      pe := some 77.5, volume := none },
    { symbol := "NVDA", name := "NVIDIA Corporation", type := "STOCK",
      basePrice := 178, sector := "Technology", previousClose := 177.20,
      openPrice := 178.50, beta := some 1.65, eps := some 2.48,
      pe := some 71.8, volume := none },
    { symbol := "MSFT", name := "Microsoft Corporation", type := "STOCK",
      basePrice := 420, sector := "Technology", previousClose := 419.50,
      openPrice := 420.30, beta := some 0.95, eps := some 11.05,
      pe := some 38.0, volume := none },
    ibmFallbackAsset,
    { symbol := "JNJ", name := "Johnson & Johnson", type := "STOCK",
      basePrice := 162, sector := "Healthcare", previousClose := 161.50,
      openPrice := 162.30, beta := some 0.65, eps := some 6.20,
      pe := some 26.1, volume := none },
    { symbol := "PG", name := "Procter & Gamble Co.", type := "STOCK",
      basePrice := 155, sector := "Consumer Goods", previousClose := 154.80,
      openPrice := 155.40, beta := some 0.55, eps := some 5.15,
      pe := some 30.1, volume := none },
    { symbol := "WMT", name := "Walmart Inc.", type := "STOCK",
      basePrice := 165, sector := "Retail", previousClose := 164.70,
      openPrice := 165.10, beta := some 0.45, eps := some 6.29,
      pe := some 26.2, volume := none },
    { symbol := "JPM", name := "JPMorgan Chase & Co.", type := "STOCK",
      basePrice := 155, sector := "Financial", previousClose := 154.50,
      openPrice := 155.30, beta := some 1.15, eps := some 15.36,
      pe := some 10.1, volume := none },
    { symbol := "BAC", name := "Bank of America Corp.", type := "STOCK",
      basePrice := 32, sector := "Financial", previousClose := 31.80,
      openPrice := 32.10, beta := some 1.25, eps := some 3.19,
      pe := some 10.0, volume := none },
    { symbol := "BTC", name := "Bitcoin", type := "CRYPTO",
      basePrice := 65000, sector := "Cryptocurrency",
      previousClose := 64800, openPrice := 65200, beta := none, eps := none,
      pe := none, volume := some 25000000000 },
    { symbol := "ETH", name := "Ethereum", type := "CRYPTO",
      basePrice := 3200, sector := "Cryptocurrency", previousClose := 3180,
      openPrice := 3220, beta := none, eps := none, pe := none,
      volume := some 12000000000 },
    { symbol := "SHIB", name := "Shiba Inu", type := "CRYPTO",
      basePrice := 0.000015, sector := "Cryptocurrency",
      previousClose := 0.0000148, openPrice := 0.0000152, beta := none,
      eps := none, pe := none, volume := some 500000000 },
    { symbol := "XMR", name := "Monero", type := "CRYPTO",
      basePrice := 145, sector := "Cryptocurrency", previousClose := 144.20,
      openPrice := 145.80, beta := none, eps := none, pe := none,
      volume := some 85000000 } ]

/-- The filter and slice(0, 8) of `getEnhancedFallbackSearchResults`. -/
def fallbackMatches (query : String) : List FallbackAsset :=
  (enhancedFallbackAssets.filter (fun asset =>
    jsIncludes (jsToLower asset.symbol) (jsToLower query) ||
    jsIncludes (jsToLower asset.name) (jsToLower query))).take 8

/-- The map body of `getEnhancedFallbackSearchResults` at one asset, with
its three Math.random draws. -/
def mkFallbackResult (asset : FallbackAsset) (r1 r2 r3 : ℚ) :
    FallbackResult :=
  let priceVariation := (r1 - 1/2) * (6/100)
  let price := asset.basePrice * (1 + priceVariation)
  let changePercent := (r2 - 1/2) * 6
  let change := price * (changePercent / 100)
  { symbol := asset.symbol
    name := asset.name
    type := asset.type
    price := jsRound2 price
    change := jsRound2 change
    changePercent := jsRound2 changePercent
    volume :=
      match asset.volume with
      | some v => v
      | none => ((⌊r3 * 50000000⌋ + 1000000 : ℤ) : ℚ)
    sector := asset.sector
    previousClose := asset.previousClose
    openPrice := asset.openPrice
    beta := asset.beta
    eps := asset.eps
    pe := asset.pe }

def mapFallback (rand : Nat → ℚ) :
    List FallbackAsset → Nat → List FallbackResult
  | [], _ => []
  | a :: rest, j =>
    mkFallbackResult a (rand (3 * j)) (rand (3 * j + 1)) (rand (3 * j + 2)) ::
      mapFallback rand rest (j + 1)

def getEnhancedFallbackSearchResults (query : String) (rand : Nat → ℚ) :
    List FallbackResult :=
  mapFallback rand (fallbackMatches query) 0

/-- The body of the `searchAssets` operation after cache miss: each provider
contributes its results only when its rate check passes and it does not
error; when no provider contributed anything the static fallback fills in;
the final list is sliced to ten entries.  The function is total: every path
returns a list, never an exception. -/
def searchOperation (alphaAvailable finnhubAvailable : Bool)
    (alphaResults finnhubResults : List FallbackResult) (query : String)
    (rand : Nat → ℚ) : List FallbackResult :=
  let results := (if alphaAvailable then alphaResults else []) ++
    (if finnhubAvailable then finnhubResults else [])
  let results :=
    if results.isEmpty then getEnhancedFallbackSearchResults query rand
    else results
  results.take 10

lemma jsRound2_pos (x : ℚ) (h : 1 ≤ x) : 0 < jsRound2 x := by
  unfold jsRound2 jsRound
  have hfloor : (100 : ℤ) ≤ ⌊x * 100 + 1/2⌋ := by
    apply Int.le_floor.mpr
    push_cast
    linarith
  have hcast : (0 : ℚ) < ((⌊x * 100 + 1/2⌋ : ℤ) : ℚ) := by
    have h0 : (0 : ℤ) < ⌊x * 100 + 1/2⌋ := by omega
    exact_mod_cast h0
  exact div_pos hcast (by norm_num)

/-- C7: when every remote provider is rate-limited or errors, the search for
IBM resolves through the static in-memory fallback table to a non-empty
result whose single entry carries symbol IBM and a price strictly greater
than zero, for every possible sequence of Math.random draws; the operation
is a total function, so no exception reaches the caller. -/
theorem searchOperation_ibm_fallback (alphaResults finnhubResults :
    List FallbackResult) (rand : Nat → ℚ)
    (hr : ∀ n, 0 ≤ rand n ∧ rand n < 1) :
    searchOperation false false alphaResults finnhubResults "IBM" rand =
      [mkFallbackResult ibmFallbackAsset (rand 0) (rand 1) (rand 2)] ∧
    searchOperation false false alphaResults finnhubResults "IBM" rand ≠
      [] ∧
    (mkFallbackResult ibmFallbackAsset (rand 0) (rand 1) (rand 2)).symbol =
      "IBM" ∧
    0 < (mkFallbackResult ibmFallbackAsset (rand 0) (rand 1) (rand 2)).price
    := by
  have hmatches : fallbackMatches "IBM" = [ibmFallbackAsset] := by rfl
  have hout : searchOperation false false alphaResults finnhubResults "IBM"
      rand =
      [mkFallbackResult ibmFallbackAsset (rand 0) (rand 1) (rand 2)] := by
    simp only [searchOperation, if_false, List.nil_append, List.isEmpty_nil,
      getEnhancedFallbackSearchResults, hmatches, mapFallback]
    rfl
  have hprice : 0 <
      (mkFallbackResult ibmFallbackAsset (rand 0) (rand 1) (rand 2)).price := by
    have h0 := (hr 0).1
    have h1 := (hr 0).2
    have hshow : (mkFallbackResult ibmFallbackAsset (rand 0) (rand 1)
        (rand 2)).price =
        jsRound2 (145 * (1 + (rand 0 - 1/2) * (6/100))) := rfl
    rw [hshow]
    apply jsRound2_pos
    nlinarith
  exact ⟨hout, by rw [hout]; simp, rfl, hprice⟩

/-- Witness for C7 with both providers down and the constant draw 1/2. -/
theorem searchOperation_ibm_fallback_witness :
    searchOperation false false [] [] "IBM" (fun _ => (1 : ℚ)/2) =
      [mkFallbackResult ibmFallbackAsset (1/2) (1/2) (1/2)] ∧
    searchOperation false false [] [] "IBM" (fun _ => (1 : ℚ)/2) ≠ [] ∧
    (mkFallbackResult ibmFallbackAsset (1/2) (1/2) (1/2)).symbol = "IBM" ∧
    0 < (mkFallbackResult ibmFallbackAsset (1/2) (1/2) (1/2)).price :=
  searchOperation_ibm_fallback [] [] (fun _ => (1 : ℚ)/2)
    (fun _ => by norm_num)
